import Mathlib

/-!
Shallow embedding of the core of the TitanQuest2Fix repository:
`Utils::patternScan`, `Utils::patch` and `Utils::injectPatch` from
`src/utils.cpp`, and the two hook callback bodies of `src/dllmain.cpp`
(`fovFeature`, `hudFeature`), together with theorems settling the
specification claims about them.

Machine integers are modelled as `Nat` with explicit `% 2 ^ 64` where the
64-bit width matters; bytes are `Nat` values below 256 (the parsers truncate
with `% 256` exactly where the source casts to `u8`).
-/

/-- The pair of token lists produced by the signature compiler
`pattern_to_byte` inside `Utils::patternScan` (src/utils.cpp:103-127):
`bytes` holds the byte value of each token (`0xFF` for a wildcard), `check`
holds `1` for an exact token and `0` for a wildcard. -/
structure Pattern where
  bytes : List Nat
  check : List Nat
deriving Repr, DecidableEq

/-- Value of one hexadecimal digit, `none` for a character that is not a
hex digit; the digit classification used by `strtoul(_, _, 16)`. -/
def hexDigitVal (c : Char) : Option Nat :=
  if '0' ≤ c ∧ c ≤ '9' then some (c.toNat - '0'.toNat)
  else if 'a' ≤ c ∧ c ≤ 'f' then some (c.toNat - 'a'.toNat + 10)
  else if 'A' ≤ c ∧ c ≤ 'F' then some (c.toNat - 'A'.toNat + 10)
  else none

/-- `hexRunAux l acc = (value, count)`: reads the maximal leading run of hex
digits of `l` and returns the accumulated value together with the number of
digits consumed; the digit-accumulation loop at the core of
`strtoul(_, _, 16)`.  The surrounding subject-sequence handling of
`strtoul` — white-space skip, optional sign, optional `0x` prefix, range
clamping — is modelled on top of this by `strtoul16C` below. -/
def hexRunAux : List Char → Nat → Nat × Nat
  | [], acc => (acc, 0)
  | c :: rest, acc =>
    match hexDigitVal c with
    | none => (acc, 0)
    | some d =>
      let r := hexRunAux rest (16 * acc + d)
      (r.1, r.2 + 1)

/-- The numeric value of the maximal leading hex-digit run. -/
def hexVal (l : List Char) : Nat := (hexRunAux l 0).1

/-- The length of the maximal leading hex-digit run. -/
def hexLen (l : List Char) : Nat := (hexRunAux l 0).2

/-- The white-space characters `isspace` accepts in the "C" locale, which
`strtoul` skips before the subject sequence: space, horizontal tab, line
feed, vertical tab, form feed, carriage return. -/
def isSpaceChar (c : Char) : Bool :=
  c = ' ' ∨ c = '\t' ∨ c = '\n' ∨ c = '\x0B' ∨ c = '\x0C' ∨ c = '\r'

/-- The number of leading white-space characters `strtoul` skips. -/
def leadingSpaces : List Char → Nat
  | [] => 0
  | c :: t => if isSpaceChar c then leadingSpaces t + 1 else 0

/-- The digits part of `strtoul(_, _, 16)`'s subject sequence, after any
sign: an optional `0x`/`0X` prefix — which per ISO C only belongs to the
subject sequence when a hex digit follows it, otherwise just the `0` is
converted — followed by the maximal run of hex digits.  Returns the raw
(unclamped) value and the number of characters consumed; zero characters
consumed means no conversion could be performed. -/
def hexSubject (l : List Char) : Nat × Nat :=
  match l with
  | '0' :: x :: t =>
    if (x = 'x' ∨ x = 'X') ∧ hexLen t ≠ 0 then (hexVal t, 2 + hexLen t)
    else (hexVal l, hexLen l)
  | _ => (hexVal l, hexLen l)

/-- `strtoul(nptr, &endptr, 16)` as called by `pattern_to_byte`
(src/utils.cpp:122): returns the converted value and the number of
characters consumed (the distance `endptr - nptr`).  Per ISO C the subject
sequence is leading white space, an optional `+`/`-` sign, an optional
`0x`/`0X` prefix and the maximal hex-digit run; when no conversion can be
performed the value is `0` and `endptr = nptr` (zero characters consumed).
On the Windows target of this repository `unsigned long` is 32 bits, so a
magnitude beyond `ULONG_MAX = 0xFFFFFFFF` is clamped to it (`ERANGE`), and
a `-` sign negates the value in the unsigned return type (modulo
`2 ^ 32`). -/
def strtoul16C (l : List Char) : Nat × Nat :=
  let w := leadingSpaces l
  let r1 := l.drop w
  let sn := if r1.head? = some '+' ∨ r1.head? = some '-' then 1 else 0
  let r := hexSubject (r1.drop sn)
  if r.2 = 0 then (0, 0)
  else if r1.head? = some '-' then
    ((2 ^ 32 - min r.1 (2 ^ 32 - 1)) % 2 ^ 32, w + sn + r.2)
  else (min r.1 (2 ^ 32 - 1), w + sn + r.2)

/-- The signature compiler `pattern_to_byte` inside `Utils::patternScan`
(src/utils.cpp:103-127), as a loop over the remaining characters of the C
string.  A space is skipped.  A `?` pushes a wildcard token (`bytes` value
`0xFF`, `check` `0`) and the cursor advances by three (`current += 2` plus
the loop increment), i.e. past the `?` and the two following characters —
so `"?? "` consumes the pair and its trailing space, and a lone `"? "`
consumes the space and the first character of the next token.  Any other
character is handed to `strtoul(current, &current, 16)`: its value is
pushed truncated to a byte (the `u8` element type of the vector) with
`check` `1`, and the cursor advances past the consumed digits plus one
further character (the loop increment).  A character at which `strtoul`
performs no conversion consumes nothing (`endptr = nptr`), so it
contributes an exact `0x00` token and the cursor advances by one — nothing
is ever rejected.  `fuel` bounds the recursion for Lean; every step
consumes at least one character, so calling with `fuel` equal to the
length of the list never exhausts it. -/
def parseLoop : Nat → List Char → Pattern
  | 0, _ => ⟨[], []⟩
  | _ + 1, [] => ⟨[], []⟩
  | fuel + 1, c :: rest =>
    if c = ' ' then parseLoop fuel rest
    else if c = '?' then
      let p := parseLoop fuel (rest.drop 2)
      ⟨0xFF :: p.bytes, 0 :: p.check⟩
    else
      let r := strtoul16C (c :: rest)
      let p := parseLoop fuel (rest.drop r.2)
      ⟨r.1 % 256 :: p.bytes, 1 :: p.check⟩

/-- `pattern_to_byte` applied to the C string of a signature. -/
def pattern_to_byte (s : String) : Pattern :=
  parseLoop s.toList.length s.toList

/-- The inner loop of `Utils::patternScan` (src/utils.cpp:142-148) at start
offset `i`: the candidate fails exactly when some position `j` has
`check[j] == 1` and `scanBytes[i + j] != bytes[j]`; a wildcard token
(`check[j] == 0`) matches any byte.  Out-of-range reads default to `0`;
for the offsets the outer loop visits all reads are in range. -/
def matchAt (img bytes check : List Nat) (i : Nat) : Bool :=
  (List.range bytes.length).all fun j =>
    (check.getD j 0 != 1) || (img.getD (i + j) 0 == bytes.getD j 0)

/-- The outer loop of `Utils::patternScan` (src/utils.cpp:140-152): `i` is
the current offset and `fuel` the number of iterations left — the C loop
runs while `i < sizeOfImage - size`, i.e. for `sizeOfImage - size`
iterations starting at `i = 0`.  Returns the first matching offset, `none`
when the loop exhausts. -/
def scanLoop (img bytes check : List Nat) : Nat → Nat → Option Nat
  | _, 0 => none
  | i, fuel + 1 =>
    if matchAt img bytes check i then some i
    else scanLoop img bytes check (i + 1) fuel

/-- `Utils::patternScan` (src/utils.cpp:101-154).  The module is modelled by
its base address and the list of its mapped bytes; the `SizeOfImage` field
the code reads from the PE optional header is the length of that list.  On
a hit the code returns `(u64)&scanBytes[i]`, i.e. the base address plus the
offset as a 64-bit value (hence the reduction modulo `2 ^ 64`); when the
loop exhausts it returns `0`.  The loop bound `sizeOfImage - size` is
computed in unsigned arithmetic; the truncated `Nat` subtraction used here
agrees with it whenever the signature is no longer than the image, which
holds in every theorem below. -/
def patternScan (base : Nat) (img : List Nat) (signature : String) : Nat :=
  let pat := pattern_to_byte signature
  match scanLoop img pat.bytes pat.check 0 (img.length - pat.bytes.length) with
  | some i => (base + i) % 2 ^ 64
  | none => 0

/-- Tokenizer of the `patternToByte` lambda inside `Utils::patch`
(src/utils.cpp:83-92): `std::istringstream >> byteStr` yields the maximal
runs of non-space characters, in order.  `acc` holds the characters of the
token currently being read, in reverse. -/
def splitTokensAux : List Char → List Char → List (List Char)
  | [], acc => if acc.isEmpty then [] else [acc.reverse]
  | c :: rest, acc =>
    if c = ' ' then
      if acc.isEmpty then splitTokensAux rest []
      else acc.reverse :: splitTokensAux rest []
    else splitTokensAux rest (c :: acc)

/-- `std::stoul(byteStr, nullptr, 16)`: applies `strtoul`'s subject-sequence
rules to the token (white-space skip, optional sign, optional `0x` prefix,
maximal hex-digit run) and ignores what follows the sequence, since no
position pointer is requested; it throws `std::invalid_argument` when no
conversion can be performed and `std::out_of_range` when the magnitude
exceeds the 32-bit `ULONG_MAX` — either exception escapes `Utils::patch`
uncaught, so both are `none`. -/
def stoul16 (t : List Char) : Option Nat :=
  let w := leadingSpaces t
  let r1 := t.drop w
  let sn := if r1.head? = some '+' ∨ r1.head? = some '-' then 1 else 0
  let r := hexSubject (r1.drop sn)
  if r.2 = 0 then none
  else if 2 ^ 32 ≤ r.1 then none
  else if r1.head? = some '-' then some ((2 ^ 32 - r.1) % 2 ^ 32)
  else some r.1

/-- The token loop of `patternToByte` inside `Utils::patch`: each extracted
token is converted with `stoul` and truncated to a byte by the
`static_cast<u8>`; a token `stoul` throws on aborts the whole conversion
by exception (`none`). -/
def parseTokens : List (List Char) → Option (List Nat)
  | [] => some []
  | t :: ts =>
    match stoul16 t, parseTokens ts with
    | some v, some vs => some (v % 256 :: vs)
    | _, _ => none

/-- The `patternToByte` lambda of `Utils::patch` (src/utils.cpp:83-92). -/
def patternToByte (pattern : String) : Option (List Nat) :=
  parseTokens (splitTokensAux pattern.toList [])

/-- The machine state `Utils::patch` acts on: the bytes of process memory,
and the protection of the page range being patched.  `VirtualProtect` works
at page granularity and every patch of this code base stays inside one such
range, so one protection value is tracked. -/
structure MemState where
  mem : Nat → Nat
  prot : Nat

/-- The Windows protection constant passed by `Utils::patch`. -/
def PAGE_EXECUTE_READWRITE : Nat := 0x40

/-- `VirtualProtect(address, size, newProt, &oldProtect)`.  Whether the OS
call succeeds is not decidable inside the embedding, so it is the explicit
parameter `ok`.  On success the protection becomes `newProt` and the
previous value is written through the out parameter (`some`); on failure
nothing is changed and the out parameter is not written (`none`), per the
call's contract.  `address` and `size` select the page range, which the
single-range protection state does not need. -/
def virtualProtect (ok : Bool) (s : MemState) (address size newProt : Nat) :
    MemState × Option Nat :=
  if ok then ({ s with prot := newProt }, some s.prot) else (s, none)

/-- `memcpy((LPVOID)address, bytes.data(), bytes.size())` on the byte
store. -/
def memcpyFun (m : Nat → Nat) (address : Nat) (bytes : List Nat) : Nat → Nat :=
  fun a =>
    if address ≤ a ∧ a < address + bytes.length then bytes.getD (a - address) 0
    else m a

/-- `Utils::patch` (src/utils.cpp:81-99).  The local `DWORD oldProtect` is
declared without an initialiser; when the first `VirtualProtect` fails it is
never written, so the value the restore call then passes is the arbitrary
`oldProtectInit`.  `ok1` and `ok2` are the outcomes of the two
`VirtualProtect` calls; the code never examines either return value — the
`memcpy` runs unconditionally between them.  A byte string the conversion
lambda throws on gives `none`: the exception leaves `patch` before any call
is made, the conversion happening first. -/
def patch (ok1 ok2 : Bool) (oldProtectInit : Nat) (address : Nat)
    (pattern : String) (s : MemState) : Option MemState :=
  match patternToByte pattern with
  | none => none
  | some patternBytes =>
    let r1 := virtualProtect ok1 s address patternBytes.length PAGE_EXECUTE_READWRITE
    let s2 : MemState := { r1.1 with mem := memcpyFun r1.1.mem address patternBytes }
    let oldProtect := r1.2.getD oldProtectInit
    let r2 := virtualProtect ok2 s2 address patternBytes.length oldProtect
    some r2.1

/-- Modelled from the spec: the module handed to the scanner — "an opaque,
already-loaded, contiguous region of executable memory … addressable by a
base pointer and a total size".  `Utils::ModuleInfo` is declared in
`utils.hpp`, which is not among the provided sources; it carries the base
address and the module name used in log lines.  `image` is the list of the
bytes mapped at `address`; its length is the image size. -/
structure ModuleInfo where
  address : Nat
  name : String
  image : List Nat

/-- Modelled from the spec: the patch descriptor "{signature, byte-string
to write, offset from match start at which to write}".  `Utils::SignaturePatch`
is declared in the missing `utils.hpp`; `Utils::injectPatch` reads its
`signature`, `patch` and `patchOffset` fields. -/
structure SignaturePatch where
  signature : String
  patch : String
  patchOffset : Nat

/-- One `LOG(...)` line emitted by `Utils::injectPatch`, with the values it
formats: the enable line, the found line (signature, module name, relative
address), the patched line (patch string, module name, patched relative
address), and the not-found line. -/
inductive LogEntry where
  | fixStatus (enabled : Bool)
  | found (signature : String) (moduleName : String) (relAddr : Nat)
  | patched (patchStr : String) (moduleName : String) (patchRelAddr : Nat)
  | notFound (signature : String)
deriving Repr, DecidableEq

/-- 64-bit wrap-around subtraction, for operands below `2 ^ 64`. -/
def sub64 (a b : Nat) : Nat := (a + 2 ^ 64 - b) % 2 ^ 64

/-- `Utils::injectPatch` (src/utils.cpp:156-175).  Log lines are collected
in order; `ok1`, `ok2` and `oldProtectInit` parameterise the inner
`Utils::patch` as above.  `none` models the `std::stoul` exception escaping
from `Utils::patch` — nothing in the function catches it (the partial log
output made before such a crash is not retained by the model; no theorem
below concerns that case). -/
def injectPatch (enable : Bool) (module : ModuleInfo) (sp : SignaturePatch)
    (ok1 ok2 : Bool) (oldProtectInit : Nat) (s : MemState) :
    Option (MemState × List LogEntry) :=
  if enable then
    let addr := patternScan module.address module.image sp.signature
    if addr ≠ 0 then
      let relAddr := sub64 addr module.address
      let patchAbsAddr := (addr + sp.patchOffset) % 2 ^ 64
      let patchRelAddr := (relAddr + sp.patchOffset) % 2 ^ 64
      match patch ok1 ok2 oldProtectInit patchAbsAddr sp.patch s with
      | some s2 =>
        some (s2, [LogEntry.fixStatus true,
                   LogEntry.found sp.signature module.name relAddr,
                   LogEntry.patched sp.patch module.name patchRelAddr])
      | none => none
    else
      some (s, [LogEntry.fixStatus true, LogEntry.notFound sp.signature])
  else
    some (s, [LogEntry.fixStatus false])

/-- The four 32-bit single-precision lanes of one SafetyHook `Xmm`
register, each modelled as its 32-bit pattern.  (The union's other views —
`u8`, `f64` — are not used by any callback in this repository.) -/
structure Xmm where
  f32_0 : Nat
  f32_1 : Nat
  f32_2 : Nat
  f32_3 : Nat
deriving Repr, DecidableEq

/-- Modelled from the spec: the "Register Context" — "a snapshot of
general-purpose and floating-point/vector registers accessible to a hook
callback".  The `SafetyHookContext` type comes from the safetyhook
dependency, not from this repository's sources; on x64 it carries the
sixteen vector registers and the saved general-purpose registers. -/
structure SafetyHookContext where
  xmm0 : Xmm
  xmm1 : Xmm
  xmm2 : Xmm
  xmm3 : Xmm
  xmm4 : Xmm
  xmm5 : Xmm
  xmm6 : Xmm
  xmm7 : Xmm
  xmm8 : Xmm
  xmm9 : Xmm
  xmm10 : Xmm
  xmm11 : Xmm
  xmm12 : Xmm
  xmm13 : Xmm
  xmm14 : Xmm
  xmm15 : Xmm
  rflags : Nat
  r15 : Nat
  r14 : Nat
  r13 : Nat
  r12 : Nat
  r11 : Nat
  r10 : Nat
  r9 : Nat
  r8 : Nat
  rdi : Nat
  rsi : Nat
  rdx : Nat
  rcx : Nat
  rbx : Nat
  rax : Nat
  rbp : Nat
  rsp : Nat
  trampolineRsp : Nat
  rip : Nat
deriving Repr, DecidableEq

/-- The hook body of `fovFeature` (src/dllmain.cpp:346-350):
`ctx.xmm0.f32[0] = yml.features.fov.value;`.  `fovValue` is the bit pattern
of the configured `yml.features.fov.value`. -/
def fovCallback (fovValue : Nat) (ctx : SafetyHookContext) : SafetyHookContext :=
  { ctx with xmm0 := { ctx.xmm0 with f32_0 := fovValue } }

/-- The hook body of `hudFeature` (src/dllmain.cpp:435-439):
`ctx.xmm0.f32[0] += ctx.xmm0.f32[0] * 0.125f;`.  The IEEE-754
single-precision computation `x + x * 0.125f` is floating point and outside
the shallow embedding; it is abstracted as the function `hudScale` applied
to the old lane-0 pattern.  The claim verified about this callback concerns
only which fields it writes, which does not depend on the scalar
function. -/
def hudCallback (hudScale : Nat → Nat) (ctx : SafetyHookContext) :
    SafetyHookContext :=
  { ctx with xmm0 := { ctx.xmm0 with f32_0 := hudScale ctx.xmm0.f32_0 } }

/-- The loop of `patternScan` exhausts exactly when no offset it visits
matches. -/
theorem scanLoop_eq_none (img bytes check : List Nat) :
    ∀ fuel i, scanLoop img bytes check i fuel = none ↔
      ∀ k, i ≤ k → k < i + fuel → matchAt img bytes check k = false := by
  intro fuel
  induction fuel with
  | zero =>
    intro i
    constructor
    · intro _ k hik hk
      omega
    · intro _
      rfl
  | succ n ih =>
    intro i
    cases hmi : matchAt img bytes check i with
    | true =>
      constructor
      · intro hnone
        simp [scanLoop, hmi] at hnone
      · intro hall
        have hfalse := hall i (Nat.le_refl i) (by omega)
        simp [hfalse] at hmi
    | false =>
      constructor
      · intro hnone k hik hk
        rcases Nat.eq_or_lt_of_le hik with rfl | hlt
        · exact hmi
        · have hrec : scanLoop img bytes check (i + 1) n = none := by
            simpa [scanLoop, hmi] using hnone
          exact (ih (i + 1)).mp hrec k hlt (by omega)
      · intro hall
        simp only [scanLoop, hmi, Bool.false_eq_true, if_false]
        exact (ih (i + 1)).mpr fun k hik hk => hall k (by omega) (by omega)

/-- The loop of `patternScan` returns exactly the first matching offset in
the window it visits. -/
theorem scanLoop_eq_some (img bytes check : List Nat) :
    ∀ fuel i k, scanLoop img bytes check i fuel = some k ↔
      (i ≤ k ∧ k < i + fuel ∧ matchAt img bytes check k = true ∧
        ∀ j, i ≤ j → j < k → matchAt img bytes check j = false) := by
  intro fuel
  induction fuel with
  | zero =>
    intro i k
    constructor
    · intro h
      simp [scanLoop] at h
    · rintro ⟨h1, h2, -, -⟩
      omega
  | succ n ih =>
    intro i k
    cases hmi : matchAt img bytes check i with
    | true =>
      constructor
      · intro h
        have hik : i = k := by simpa [scanLoop, hmi] using h
        subst hik
        exact ⟨Nat.le_refl i, by omega, hmi, fun j h1 h2 => by omega⟩
      · rintro ⟨h1, h2, h3, h4⟩
        rcases Nat.eq_or_lt_of_le h1 with rfl | hlt
        · simp [scanLoop, hmi]
        · have hfalse := h4 i (Nat.le_refl i) hlt
          simp [hfalse] at hmi
    | false =>
      constructor
      · intro h
        have hrec : scanLoop img bytes check (i + 1) n = some k := by
          simpa [scanLoop, hmi] using h
        obtain ⟨h1, h2, h3, h4⟩ := (ih (i + 1) k).mp hrec
        refine ⟨by omega, by omega, h3, fun j hj1 hj2 => ?_⟩
        rcases Nat.eq_or_lt_of_le hj1 with rfl | hlt
        · exact hmi
        · exact h4 j hlt hj2
      · rintro ⟨h1, h2, h3, h4⟩
        have hik : i < k := by
          rcases Nat.eq_or_lt_of_le h1 with rfl | hlt
          · rw [h3] at hmi
            cases hmi
          · exact hlt
        simp only [scanLoop, hmi, Bool.false_eq_true, if_false]
        exact (ih (i + 1) k).mpr
          ⟨by omega, by omega, h3, fun j hj1 hj2 => h4 j (by omega) hj2⟩

/-- `getD` of a list that avoids a value, with a default avoiding it too. -/
theorem getD_ne_one {l : List Nat} (j : Nat) (h : 1 ∉ l) : l.getD j 0 ≠ 1 := by
  induction l generalizing j with
  | nil =>
    simp [List.getD]
  | cons a t ih =>
    cases j with
    | zero =>
      intro ha
      exact h (by simp [List.getD] at ha; simp [ha])
    | succ m =>
      simpa [List.getD] using ih m (fun hm => h (List.mem_cons_of_mem a hm))

/-- A candidate with no exact token matches everywhere. -/
theorem matchAt_of_no_check (img bytes check : List Nat) (i : Nat)
    (h : 1 ∉ check) : matchAt img bytes check i = true := by
  unfold matchAt
  rw [List.all_eq_true]
  intro j _
  have hne : check.getD j 0 ≠ 1 := getD_ne_one j h
  rw [Bool.or_eq_true]
  left
  rwa [bne_iff_ne]

/-- When `strtoul` consumes no characters, it also returns the value `0`
(no conversion was performed at all). -/
theorem strtoul16C_no_conversion (l : List Char)
    (h : (strtoul16C l).2 = 0) : strtoul16C l = (0, 0) := by
  simp only [strtoul16C] at h ⊢
  set w := leadingSpaces l
  set r1 := l.drop w
  set sn := (if r1.head? = some '+' ∨ r1.head? = some '-' then 1 else 0 : Nat)
  set r := hexSubject (r1.drop sn)
  by_cases hz : r.2 = 0
  · rw [if_pos hz]
  · rw [if_neg hz] at h
    exfalso
    by_cases hm : r1.head? = some '-'
    · rw [if_pos hm] at h
      simp only at h
      omega
    · rw [if_neg hm] at h
      simp only at h
      omega

/-- What `Utils::patch` does when the byte string converts: the copy is
made unconditionally and the final protection depends only on the two call
outcomes. -/
theorem patch_eq (ok1 ok2 : Bool) (init address : Nat) (pattern : String)
    (s : MemState) (bytes : List Nat) (hp : patternToByte pattern = some bytes) :
    patch ok1 ok2 init address pattern s =
      some { mem := memcpyFun s.mem address bytes,
             prot := if ok2 then (if ok1 then s.prot else init)
                     else (if ok1 then PAGE_EXECUTE_READWRITE else s.prot) } := by
  cases ok1 <;> cases ok2 <;> simp [patch, hp, virtualProtect]

/-- C1 (counterexample): the claim says every candidate offset from `0` to
`image_size - N` inclusive is compared.  With image bytes `[0xBB, 0xAA]`
and signature `"AA"` (one exact token, `N = 1`), the claimed final
candidate `image_size - N = 1` does match, yet `patternScan` returns `0`
(no-match): the loop `for (i = 0; i < sizeOfImage - size; i++)` never
visits offset `sizeOfImage - size`. -/
theorem c1_counterexample :
    patternScan 4096 [187, 170] "AA" = 0 ∧
    matchAt [187, 170] (pattern_to_byte "AA").bytes
      (pattern_to_byte "AA").check 1 = true := by
  decide

/-- C1 (amended): `patternScan` compares the parsed signature at every
candidate start offset `i` from `0` to `image_size - N` **exclusive** — a
wildcard token matching any byte and an exact token only its value, per
`matchAt` — and returns the address of the first (lowest) matching offset;
when the loop exhausts with no hit it returns `0` (no-match). -/
theorem c1_first_match_exclusive_bound (base : Nat) (img : List Nat)
    (sig : String) (hw : base + img.length < 2 ^ 64) :
    ((∀ i, i < img.length - (pattern_to_byte sig).bytes.length →
        matchAt img (pattern_to_byte sig).bytes (pattern_to_byte sig).check i
          = false) →
      patternScan base img sig = 0) ∧
    (∀ i, i < img.length - (pattern_to_byte sig).bytes.length →
      matchAt img (pattern_to_byte sig).bytes (pattern_to_byte sig).check i
        = true →
      (∀ j, j < i →
        matchAt img (pattern_to_byte sig).bytes (pattern_to_byte sig).check j
          = false) →
      patternScan base img sig = base + i) := by
  constructor
  · intro hall
    have hnone : scanLoop img (pattern_to_byte sig).bytes
        (pattern_to_byte sig).check 0
        (img.length - (pattern_to_byte sig).bytes.length) = none :=
      (scanLoop_eq_none img (pattern_to_byte sig).bytes
        (pattern_to_byte sig).check _ 0).mpr
        (fun k _ hk => hall k (by omega))
    simp [patternScan, hnone]
  · intro i hi hm hfirst
    have hsome : scanLoop img (pattern_to_byte sig).bytes
        (pattern_to_byte sig).check 0
        (img.length - (pattern_to_byte sig).bytes.length) = some i :=
      (scanLoop_eq_some img (pattern_to_byte sig).bytes
        (pattern_to_byte sig).check _ 0 i).mpr
        ⟨Nat.zero_le i, by omega, hm, fun j _ hj => hfirst j hj⟩
    have hlt : base + i < 2 ^ 64 := by omega
    simp only [patternScan, hsome]
    exact Nat.mod_eq_of_lt (by omega)

theorem c1_first_match_exclusive_bound_witness :
    4096 + 3 < 2 ^ 64 ∧ patternScan 4096 [187, 170, 170] "AA" = 4096 + 1 :=
  ⟨by decide,
    (c1_first_match_exclusive_bound 4096 [187, 170, 170] "AA" (by decide)).2
      1 (by decide) (by decide) (by decide)⟩

/-- C2 (counterexample): initial memory holds byte `0` at address `100` and
the protection change fails (`ok1 = false`), yet after
`patch(100, "01")` the byte at `100` is `1`: the copy was attempted — the
code never checks the result of `VirtualProtect`. -/
theorem c2_counterexample :
    (patch false true 0 100 "01" ⟨fun _ => 0, 7⟩).map (fun s2 => s2.mem 100)
      = some 1 ∧ (1 : Nat) ≠ 0 := by
  decide

/-- C2 (amended): `Utils::patch` ignores the result of the
memory-protection change of step (1): the copy of the new bytes in step (2)
is attempted unconditionally, whether or not the protection change
succeeded — the memory after the call is the copy's result for every
combination of `VirtualProtect` outcomes. -/
theorem c2_copy_attempted_unconditionally (ok1 ok2 : Bool)
    (init address : Nat) (pattern : String) (bytes : List Nat) (s : MemState)
    (hp : patternToByte pattern = some bytes) :
    (patch ok1 ok2 init address pattern s).map MemState.mem =
      some (memcpyFun s.mem address bytes) := by
  rw [patch_eq ok1 ok2 init address pattern s bytes hp]
  rfl

theorem c2_copy_attempted_unconditionally_witness :
    patternToByte "01" = some [1] ∧
    (patch false true 0 100 "01" ⟨fun _ => 0, 7⟩).map MemState.mem =
      some (memcpyFun (fun _ => 0) 100 [1]) :=
  ⟨by decide,
    c2_copy_attempted_unconditionally false true 0 100 "01" [1]
      ⟨fun _ => 0, 7⟩ (by decide)⟩

/-- C3 (counterexample): the patched range starts with protection `7`; the
first `VirtualProtect` fails, so the uninitialised local `oldProtect`
(here `42`) is never written, and the restoring call then sets the
protection to `42 ≠ 7`: after a failed attempt the protection does not
equal its prior state. -/
theorem c3_counterexample :
    (patch false true 42 100 "01" ⟨fun _ => 0, 7⟩).map MemState.prot
      = some 42 ∧ (42 : Nat) ≠ 7 := by
  decide

/-- C3 (amended): when both `VirtualProtect` calls succeed, the protection
of the patched range after `Utils::patch` equals the protection before it —
the original value captured in step (1) is restored, not an assumed
default.  (When the first call fails, the value restored is the
uninitialised local, so the round trip is not guaranteed.) -/
theorem c3_prot_roundtrip_on_success (init address : Nat) (pattern : String)
    (bytes : List Nat) (s : MemState)
    (hp : patternToByte pattern = some bytes) :
    (patch true true init address pattern s).map MemState.prot = some s.prot := by
  rw [patch_eq true true init address pattern s bytes hp]
  rfl

theorem c3_prot_roundtrip_on_success_witness :
    patternToByte "01" = some [1] ∧
    (patch true true 42 100 "01" ⟨fun _ => 0, 7⟩).map MemState.prot = some 7 :=
  ⟨by decide,
    c3_prot_roundtrip_on_success 42 100 "01" [1] ⟨fun _ => 0, 7⟩ (by decide)⟩

/-- C4 (counterexample): malformed signature strings are not rejected.
`"GG"` (two non-hex characters) parses without any diagnostic to two exact
`0x00` tokens — a pattern that positively matches two zero bytes, something
unintended — and the odd-length hex token `"ABC"` parses to the single
byte `0xBC` (its value truncated to the low byte). -/
theorem c4_counterexample :
    pattern_to_byte "GG" = ⟨[0, 0], [1, 1]⟩ ∧
    matchAt [0, 0] [0, 0] [1, 1] 0 = true ∧
    pattern_to_byte "ABC" = ⟨[188], [1]⟩ := by
  decide

/-- C4 (amended): signature parsing never rejects its input — there is no
error path and no diagnostic: every string parses to a pattern.  A
character that is not a space, not `?`, and at which `strtoul` performs no
conversion (its subject sequence is empty there, as at `G`) is silently
consumed as an exact `0x00` token and parsing continues with the next
character; odd-length hex tokens are likewise accepted, their value
truncated to the low byte (see the counterexample). -/
theorem c4_malformed_not_rejected (c : Char) (rest : List Char)
    (h1 : c ≠ ' ') (h2 : c ≠ '?')
    (h3 : (strtoul16C (c :: rest)).2 = 0) :
    parseLoop (rest.length + 1) (c :: rest) =
      ⟨0 :: (parseLoop rest.length rest).bytes,
        1 :: (parseLoop rest.length rest).check⟩ := by
  have hr := strtoul16C_no_conversion (c :: rest) h3
  simp [parseLoop, h1, h2, hr]

theorem c4_malformed_not_rejected_witness :
    'G' ≠ ' ' ∧ 'G' ≠ '?' ∧ (strtoul16C ['G', 'G']).2 = 0 ∧
    parseLoop 2 ['G', 'G'] =
      ⟨0 :: (parseLoop 1 ['G']).bytes, 1 :: (parseLoop 1 ['G']).check⟩ :=
  ⟨by decide, by decide, by decide,
    c4_malformed_not_rejected 'G' ['G'] (by decide) (by decide) (by decide)⟩

/-- C5 (counterexample): signature `"AA BB ?? DD"` against a region of
exactly the bytes `AA BB 11 DD` does **not** yield offset 0 as claimed —
`patternScan` returns `0` (no-match), because the loop bound
`i < sizeOfImage - size` is `i < 0` here and the occurrence at the final
candidate offset is never compared (the match is real: `matchAt` holds at
offset 0). -/
theorem c5_counterexample :
    patternScan 4096 [170, 187, 17, 221] "AA BB ?? DD" = 0 ∧
    matchAt [170, 187, 17, 221] (pattern_to_byte "AA BB ?? DD").bytes
      (pattern_to_byte "AA BB ?? DD").check 0 = true := by
  decide

/-- C5 (amended): for a signature with at least one exact token, scanning a
region whose unique occurrence starts at an offset the loop visits (i.e.
strictly below `image_size - N`) returns that occurrence's address, and
scanning a region with no occurrence at all returns no-match.  The
concrete scenario must be padded by one byte: `"AA BB ?? DD"` against
`AA BB 11 DD EE` yields offset 0; against `AA BB 11 EE` (wherever it sits)
there is no occurrence, hence no-match. -/
theorem c5_unique_occurrence (base : Nat) (img : List Nat) (sig : String)
    (hw : base + img.length < 2 ^ 64)
    (hex : 1 ∈ (pattern_to_byte sig).check) :
    (∀ k, k < img.length - (pattern_to_byte sig).bytes.length →
      matchAt img (pattern_to_byte sig).bytes (pattern_to_byte sig).check k
        = true →
      (∀ j, j ≤ img.length - (pattern_to_byte sig).bytes.length → j ≠ k →
        matchAt img (pattern_to_byte sig).bytes (pattern_to_byte sig).check j
          = false) →
      patternScan base img sig = base + k) ∧
    ((∀ j, j ≤ img.length - (pattern_to_byte sig).bytes.length →
        matchAt img (pattern_to_byte sig).bytes (pattern_to_byte sig).check j
          = false) →
      patternScan base img sig = 0) := by
  constructor
  · intro k hk hm huniq
    have hsome : scanLoop img (pattern_to_byte sig).bytes
        (pattern_to_byte sig).check 0
        (img.length - (pattern_to_byte sig).bytes.length) = some k :=
      (scanLoop_eq_some img (pattern_to_byte sig).bytes
        (pattern_to_byte sig).check _ 0 k).mpr
        ⟨Nat.zero_le k, by omega, hm,
          fun j _ hj => huniq j (by omega) (by omega)⟩
    have hlt : base + k < 2 ^ 64 := by omega
    simp only [patternScan, hsome]
    exact Nat.mod_eq_of_lt (by omega)
  · intro hall
    have hnone : scanLoop img (pattern_to_byte sig).bytes
        (pattern_to_byte sig).check 0
        (img.length - (pattern_to_byte sig).bytes.length) = none :=
      (scanLoop_eq_none img (pattern_to_byte sig).bytes
        (pattern_to_byte sig).check _ 0).mpr
        (fun j _ hj => hall j (by omega))
    simp [patternScan, hnone]

theorem c5_unique_occurrence_witness :
    4096 + 5 < 2 ^ 64 ∧ 1 ∈ (pattern_to_byte "AA BB ?? DD").check ∧
    patternScan 4096 [170, 187, 17, 221, 238] "AA BB ?? DD" = 4096 + 0 ∧
    patternScan 4096 [170, 187, 17, 238, 0] "AA BB ?? DD" = 0 :=
  ⟨by decide, by decide,
    (c5_unique_occurrence 4096 [170, 187, 17, 221, 238] "AA BB ?? DD"
      (by decide) (by decide)).1 0 (by decide) (by decide) (by decide),
    (c5_unique_occurrence 4096 [170, 187, 17, 238, 0] "AA BB ?? DD"
      (by decide) (by decide)).2 (by decide)⟩

/-- C6 (counterexample): `"?? ??"` is a signature of pure wildcards of
length 2, and `[17, 34]` is a non-empty region of size exactly the
signature length; the claim says the scan returns the address of the first
position (`4096` here), but `patternScan` returns `0` (no-match), the
loop bound `i < sizeOfImage - size` being `i < 0`. -/
theorem c6_counterexample :
    (pattern_to_byte "?? ??").check = [0, 0] ∧
    patternScan 4096 [17, 34] "?? ??" = 0 := by
  decide

/-- C6 (amended): for a signature composed solely of wildcard tokens,
scanning any region **strictly larger** than the signature returns the
address of the first position of the region (offset 0); at size exactly
the signature length the loop body never runs and no-match is returned. -/
theorem c6_all_wildcards (base : Nat) (img : List Nat) (sig : String)
    (hw : base + img.length < 2 ^ 64)
    (hwc : 1 ∉ (pattern_to_byte sig).check)
    (hsz : (pattern_to_byte sig).bytes.length < img.length) :
    patternScan base img sig = base := by
  have hm : matchAt img (pattern_to_byte sig).bytes
      (pattern_to_byte sig).check 0 = true :=
    matchAt_of_no_check img (pattern_to_byte sig).bytes
      (pattern_to_byte sig).check 0 hwc
  have hsome : scanLoop img (pattern_to_byte sig).bytes
      (pattern_to_byte sig).check 0
      (img.length - (pattern_to_byte sig).bytes.length) = some 0 :=
    (scanLoop_eq_some img (pattern_to_byte sig).bytes
      (pattern_to_byte sig).check _ 0 0).mpr
      ⟨Nat.le_refl 0, by omega, hm, fun j h1 h2 => by omega⟩
  have hlt : base + 0 < 2 ^ 64 := by omega
  simp only [patternScan, hsome]
  exact Nat.mod_eq_of_lt (by omega)

theorem c6_all_wildcards_witness :
    4096 + 3 < 2 ^ 64 ∧ 1 ∉ (pattern_to_byte "?? ??").check ∧
    (pattern_to_byte "?? ??").bytes.length < 3 ∧
    patternScan 4096 [17, 34, 51] "?? ??" = 4096 :=
  ⟨by decide, by decide, by decide,
    c6_all_wildcards 4096 [17, 34, 51] "?? ??" (by decide) (by decide)
      (by decide)⟩

/-- Helper: `injectPatch` with the fix enabled and a scan hit: the bytes
are patched at the hit address plus `patchOffset` and the three log lines
carry the relative offsets the code computes. -/
theorem injectPatch_found (module : ModuleInfo) (sp : SignaturePatch)
    (ok1 ok2 : Bool) (init : Nat) (s : MemState) (a : Nat) (bytes : List Nat)
    (ha : patternScan module.address module.image sp.signature = a)
    (hne : a ≠ 0) (hp : patternToByte sp.patch = some bytes) :
    injectPatch true module sp ok1 ok2 init s =
      some ({ mem := memcpyFun s.mem ((a + sp.patchOffset) % 2 ^ 64) bytes,
              prot := if ok2 then (if ok1 then s.prot else init)
                      else (if ok1 then PAGE_EXECUTE_READWRITE else s.prot) },
            [LogEntry.fixStatus true,
             LogEntry.found sp.signature module.name (sub64 a module.address),
             LogEntry.patched sp.patch module.name
               ((sub64 a module.address + sp.patchOffset) % 2 ^ 64)]) := by
  simp only [injectPatch, ha, hne, ne_eq, not_false_eq_true, if_true,
    patch_eq ok1 ok2 init ((a + sp.patchOffset) % 2 ^ 64) sp.patch s bytes hp]

/-- Helper: `injectPatch` with the fix enabled and a zero scan result: no
write, the not-found line is logged. -/
theorem injectPatch_not_found (module : ModuleInfo) (sp : SignaturePatch)
    (ok1 ok2 : Bool) (init : Nat) (s : MemState)
    (h : patternScan module.address module.image sp.signature = 0) :
    injectPatch true module sp ok1 ok2 init s =
      some (s, [LogEntry.fixStatus true, LogEntry.notFound sp.signature]) := by
  simp [injectPatch, h]

/-- C7 (confirmed): with `enable` true and the scan hitting at image offset
`k`, `injectPatch` applies the patch at target address = match address +
`patchOffset` (the memory after the call is the copy of the patch bytes at
`module.address + k + patchOffset`), logs the found line with the relative
offset `k` (match address minus module base) and the patched line with
relative offset `k + patchOffset` (so a hit at relative `0x1000` with
offset 6 logs `0x1006`); when the scan finds nothing it logs the not-found
line, returns normally (`some`, no exception) and performs no write (the
state is returned unchanged). -/
theorem c7_injectPatch_enabled (module : ModuleInfo) (sp : SignaturePatch)
    (ok1 ok2 : Bool) (init : Nat) (s : MemState)
    (hw : module.address + module.image.length + sp.patchOffset < 2 ^ 64)
    (hb : 0 < module.address) :
    (∀ k bytes,
      scanLoop module.image (pattern_to_byte sp.signature).bytes
        (pattern_to_byte sp.signature).check 0
        (module.image.length - (pattern_to_byte sp.signature).bytes.length)
        = some k →
      patternToByte sp.patch = some bytes →
      injectPatch true module sp ok1 ok2 init s =
        some ({ mem := memcpyFun s.mem (module.address + k + sp.patchOffset) bytes,
                prot := if ok2 then (if ok1 then s.prot else init)
                        else (if ok1 then PAGE_EXECUTE_READWRITE else s.prot) },
              [LogEntry.fixStatus true,
               LogEntry.found sp.signature module.name k,
               LogEntry.patched sp.patch module.name (k + sp.patchOffset)])) ∧
    (scanLoop module.image (pattern_to_byte sp.signature).bytes
        (pattern_to_byte sp.signature).check 0
        (module.image.length - (pattern_to_byte sp.signature).bytes.length)
        = none →
      injectPatch true module sp ok1 ok2 init s =
        some (s, [LogEntry.fixStatus true, LogEntry.notFound sp.signature])) := by
  constructor
  · intro k bytes hscan hp
    obtain ⟨-, hklt, -, -⟩ := (scanLoop_eq_some module.image
      (pattern_to_byte sp.signature).bytes (pattern_to_byte sp.signature).check
      _ 0 k).mp hscan
    have hkle : k ≤ module.image.length := by omega
    have haddr : patternScan module.address module.image sp.signature
        = module.address + k := by
      simp only [patternScan, hscan]
      exact Nat.mod_eq_of_lt (by omega)
    have hsub : sub64 (module.address + k) module.address = k := by
      unfold sub64
      have h1 : module.address + k + 2 ^ 64 - module.address = k + 2 ^ 64 := by
        omega
      rw [h1, Nat.add_mod_right]
      exact Nat.mod_eq_of_lt (by omega)
    rw [injectPatch_found module sp ok1 ok2 init s (module.address + k) bytes
      haddr (by omega) hp, hsub,
      Nat.mod_eq_of_lt (show module.address + k + sp.patchOffset < 2 ^ 64 by omega),
      Nat.mod_eq_of_lt (show k + sp.patchOffset < 2 ^ 64 by omega)]
  · intro hscan
    exact injectPatch_not_found module sp ok1 ok2 init s
      (by simp [patternScan, hscan])

theorem c7_injectPatch_enabled_witness :
    scanLoop [170, 187, 17, 221, 238] (pattern_to_byte "AA BB ?? DD").bytes
      (pattern_to_byte "AA BB ?? DD").check 0
      (5 - (pattern_to_byte "AA BB ?? DD").bytes.length) = some 0 ∧
    patternToByte "01" = some [1] ∧
    injectPatch true ⟨4096, "TQ2", [170, 187, 17, 221, 238]⟩
      ⟨"AA BB ?? DD", "01", 6⟩ true true 0 ⟨fun _ => 0, 7⟩ =
      some ({ mem := memcpyFun (fun _ => 0) (4096 + 0 + 6) [1], prot := 7 },
            [LogEntry.fixStatus true, LogEntry.found "AA BB ?? DD" "TQ2" 0,
             LogEntry.patched "01" "TQ2" (0 + 6)]) :=
  ⟨by decide, by decide,
    (c7_injectPatch_enabled ⟨4096, "TQ2", [170, 187, 17, 221, 238]⟩
      ⟨"AA BB ?? DD", "01", 6⟩ true true 0 ⟨fun _ => 0, 7⟩ (by decide)
      (by decide)).1 0 [1] (by decide) (by decide)⟩

/-- C8 (confirmed): with `enable` false, `injectPatch` returns the state
unchanged (no scan, no memory mutation — the result does not depend on the
module, the descriptor or the protection-call outcomes at all) and the log
consists of exactly one line, the "Fix Disabled" line, emitted before any
scanning work. -/
theorem c8_injectPatch_disabled (module : ModuleInfo) (sp : SignaturePatch)
    (ok1 ok2 : Bool) (init : Nat) (s : MemState) :
    injectPatch false module sp ok1 ok2 init s =
      some (s, [LogEntry.fixStatus false]) := rfl

/-- C9 (confirmed): each hook callback writes only the field
`xmm0.f32[0]` of the register context — the FOV callback stores the
configured value there and the HUD callback stores a function of the old
lane value — and every other register field of the context equals its value
before the callback ran. -/
theorem c9_callbacks_touch_only_xmm0_lane0 (fovValue : Nat)
    (hudScale : Nat → Nat) (ctx : SafetyHookContext) :
    ((fovCallback fovValue ctx).xmm0.f32_0 = fovValue ∧
     (fovCallback fovValue ctx).xmm0.f32_1 = ctx.xmm0.f32_1 ∧
     (fovCallback fovValue ctx).xmm0.f32_2 = ctx.xmm0.f32_2 ∧
     (fovCallback fovValue ctx).xmm0.f32_3 = ctx.xmm0.f32_3 ∧
     (fovCallback fovValue ctx).xmm1 = ctx.xmm1 ∧
     (fovCallback fovValue ctx).xmm2 = ctx.xmm2 ∧
     (fovCallback fovValue ctx).xmm3 = ctx.xmm3 ∧
     (fovCallback fovValue ctx).xmm4 = ctx.xmm4 ∧
     (fovCallback fovValue ctx).xmm5 = ctx.xmm5 ∧
     (fovCallback fovValue ctx).xmm6 = ctx.xmm6 ∧
     (fovCallback fovValue ctx).xmm7 = ctx.xmm7 ∧
     (fovCallback fovValue ctx).xmm8 = ctx.xmm8 ∧
     (fovCallback fovValue ctx).xmm9 = ctx.xmm9 ∧
     (fovCallback fovValue ctx).xmm10 = ctx.xmm10 ∧
     (fovCallback fovValue ctx).xmm11 = ctx.xmm11 ∧
     (fovCallback fovValue ctx).xmm12 = ctx.xmm12 ∧
     (fovCallback fovValue ctx).xmm13 = ctx.xmm13 ∧
     (fovCallback fovValue ctx).xmm14 = ctx.xmm14 ∧
     (fovCallback fovValue ctx).xmm15 = ctx.xmm15 ∧
     (fovCallback fovValue ctx).rflags = ctx.rflags ∧
     (fovCallback fovValue ctx).r15 = ctx.r15 ∧
     (fovCallback fovValue ctx).r14 = ctx.r14 ∧
     (fovCallback fovValue ctx).r13 = ctx.r13 ∧
     (fovCallback fovValue ctx).r12 = ctx.r12 ∧
     (fovCallback fovValue ctx).r11 = ctx.r11 ∧
     (fovCallback fovValue ctx).r10 = ctx.r10 ∧
     (fovCallback fovValue ctx).r9 = ctx.r9 ∧
     (fovCallback fovValue ctx).r8 = ctx.r8 ∧
     (fovCallback fovValue ctx).rdi = ctx.rdi ∧
     (fovCallback fovValue ctx).rsi = ctx.rsi ∧
     (fovCallback fovValue ctx).rdx = ctx.rdx ∧
     (fovCallback fovValue ctx).rcx = ctx.rcx ∧
     (fovCallback fovValue ctx).rbx = ctx.rbx ∧
     (fovCallback fovValue ctx).rax = ctx.rax ∧
     (fovCallback fovValue ctx).rbp = ctx.rbp ∧
     (fovCallback fovValue ctx).rsp = ctx.rsp ∧
     (fovCallback fovValue ctx).trampolineRsp = ctx.trampolineRsp ∧
     (fovCallback fovValue ctx).rip = ctx.rip) ∧
    ((hudCallback hudScale ctx).xmm0.f32_0 = hudScale ctx.xmm0.f32_0 ∧
     (hudCallback hudScale ctx).xmm0.f32_1 = ctx.xmm0.f32_1 ∧
     (hudCallback hudScale ctx).xmm0.f32_2 = ctx.xmm0.f32_2 ∧
     (hudCallback hudScale ctx).xmm0.f32_3 = ctx.xmm0.f32_3 ∧
     (hudCallback hudScale ctx).xmm1 = ctx.xmm1 ∧
     (hudCallback hudScale ctx).xmm2 = ctx.xmm2 ∧
     (hudCallback hudScale ctx).xmm3 = ctx.xmm3 ∧
     (hudCallback hudScale ctx).xmm4 = ctx.xmm4 ∧
     (hudCallback hudScale ctx).xmm5 = ctx.xmm5 ∧
     (hudCallback hudScale ctx).xmm6 = ctx.xmm6 ∧
     (hudCallback hudScale ctx).xmm7 = ctx.xmm7 ∧
     (hudCallback hudScale ctx).xmm8 = ctx.xmm8 ∧
     (hudCallback hudScale ctx).xmm9 = ctx.xmm9 ∧
     (hudCallback hudScale ctx).xmm10 = ctx.xmm10 ∧
     (hudCallback hudScale ctx).xmm11 = ctx.xmm11 ∧
     (hudCallback hudScale ctx).xmm12 = ctx.xmm12 ∧
     (hudCallback hudScale ctx).xmm13 = ctx.xmm13 ∧
     (hudCallback hudScale ctx).xmm14 = ctx.xmm14 ∧
     (hudCallback hudScale ctx).xmm15 = ctx.xmm15 ∧
     (hudCallback hudScale ctx).rflags = ctx.rflags ∧
     (hudCallback hudScale ctx).r15 = ctx.r15 ∧
     (hudCallback hudScale ctx).r14 = ctx.r14 ∧
     (hudCallback hudScale ctx).r13 = ctx.r13 ∧
     (hudCallback hudScale ctx).r12 = ctx.r12 ∧
     (hudCallback hudScale ctx).r11 = ctx.r11 ∧
     (hudCallback hudScale ctx).r10 = ctx.r10 ∧
     (hudCallback hudScale ctx).r9 = ctx.r9 ∧
     (hudCallback hudScale ctx).r8 = ctx.r8 ∧
     (hudCallback hudScale ctx).rdi = ctx.rdi ∧
     (hudCallback hudScale ctx).rsi = ctx.rsi ∧
     (hudCallback hudScale ctx).rdx = ctx.rdx ∧
     (hudCallback hudScale ctx).rcx = ctx.rcx ∧
     (hudCallback hudScale ctx).rbx = ctx.rbx ∧
     (hudCallback hudScale ctx).rax = ctx.rax ∧
     (hudCallback hudScale ctx).rbp = ctx.rbp ∧
     (hudCallback hudScale ctx).rsp = ctx.rsp ∧
     (hudCallback hudScale ctx).trampolineRsp = ctx.trampolineRsp ∧
     (hudCallback hudScale ctx).rip = ctx.rip) := by
  repeat' apply And.intro
  all_goals rfl

/-- C10 (confirmed): `patternScan` encodes "no match" as the return value
`0` (first conjunct), and `injectPatch` with `enable` true applies the
patch exactly when the returned address is nonzero: a zero result produces
the not-found log and leaves the state untouched (second conjunct), while a
nonzero result leads to the write being performed at the returned address
plus `patchOffset` (third conjunct).  Hence a match whose absolute address
is `0` — possible only for a module based at address `0` matching at offset
`0`, as in the fourth, concrete conjunct — is reported as `0` and is
indistinguishable from not-found at the interface. -/
theorem c10_zero_encodes_no_match :
    (∀ (base : Nat) (img : List Nat) (sig : String),
      scanLoop img (pattern_to_byte sig).bytes (pattern_to_byte sig).check 0
        (img.length - (pattern_to_byte sig).bytes.length) = none →
      patternScan base img sig = 0) ∧
    (∀ (module : ModuleInfo) (sp : SignaturePatch) (ok1 ok2 : Bool)
      (init : Nat) (s : MemState),
      patternScan module.address module.image sp.signature = 0 →
      injectPatch true module sp ok1 ok2 init s =
        some (s, [LogEntry.fixStatus true, LogEntry.notFound sp.signature])) ∧
    (∀ (module : ModuleInfo) (sp : SignaturePatch) (ok1 ok2 : Bool)
      (init : Nat) (s : MemState) (bytes : List Nat),
      patternScan module.address module.image sp.signature ≠ 0 →
      patternToByte sp.patch = some bytes →
      ∃ s2 entries, injectPatch true module sp ok1 ok2 init s = some (s2, entries) ∧
        s2.mem = memcpyFun s.mem
          ((patternScan module.address module.image sp.signature
            + sp.patchOffset) % 2 ^ 64) bytes) ∧
    (patternScan 0 [170, 0] "AA" = 0 ∧
      matchAt [170, 0] (pattern_to_byte "AA").bytes
        (pattern_to_byte "AA").check 0 = true) := by
  refine ⟨?_, ?_, ?_, by decide⟩
  · intro base img sig h
    simp [patternScan, h]
  · intro module sp ok1 ok2 init s h
    exact injectPatch_not_found module sp ok1 ok2 init s h
  · intro module sp ok1 ok2 init s bytes hne hp
    exact ⟨_, _, injectPatch_found module sp ok1 ok2 init s _ bytes rfl hne hp,
      rfl⟩

theorem c10_zero_encodes_no_match_witness :
    injectPatch true ⟨4096, "TQ2", [0, 0]⟩ ⟨"AA", "01", 0⟩ true true 0
        ⟨fun _ => 0, 7⟩ =
      some (⟨fun _ => 0, 7⟩, [LogEntry.fixStatus true, LogEntry.notFound "AA"]) ∧
    ∃ s2 entries,
      injectPatch true ⟨4096, "TQ2", [170, 0, 0]⟩ ⟨"AA", "01", 0⟩ true true 0
        ⟨fun _ => 0, 7⟩ = some (s2, entries) ∧
      s2.mem = memcpyFun (fun _ => 0)
        ((patternScan 4096 [170, 0, 0] "AA" + 0) % 2 ^ 64) [1] :=
  ⟨c10_zero_encodes_no_match.2.1 ⟨4096, "TQ2", [0, 0]⟩ ⟨"AA", "01", 0⟩
      true true 0 ⟨fun _ => 0, 7⟩ (by decide),
    c10_zero_encodes_no_match.2.2.1 ⟨4096, "TQ2", [170, 0, 0]⟩
      ⟨"AA", "01", 0⟩ true true 0 ⟨fun _ => 0, 7⟩ [1] (by decide) (by decide)⟩
